import Mathlib

/-!
# papercollector: `src/services/arxivService.js`

A shallow embedding of `arxivService.getRecentPapers` and proofs about it.

The function fetches an Atom feed from the arXiv API, parses it with
`fast-xml-parser`, keeps the entries published in the trailing seven days and
maps each retained entry to a flat paper record.

Modelling conventions.

* `XVal` is the type of values the XML parser hands back: strings, numbers,
  booleans, objects and arrays.  The parser never produces `undefined` or
  `null`, so these are not constructors; `undefined` only shows up as the result
  of reading a property that is not there, and is modelled by `none` in
  `JSVal = Option XVal`.
* Number values are modelled by integers.
* A JavaScript exception is the `error` side of `Except JSError`.
* Everything the function obtains from its host (the clock, local-time calendar
  arithmetic, `Date.parse`, the HTTP client and the XML parser) is a field of
  `Host`.
-/

namespace ArxivService

/-! ## Values -/

/-- Values produced by `XMLParser.parse`. -/
inductive XVal where
  | str (s : String)
  | num (n : Int)
  | bool (b : Bool)
  | obj (fields : List (String × XVal))
  | arr (items : List XVal)

/-- A JavaScript value as seen by the service: `none` is `undefined`. -/
abbrev JSVal := Option XVal

/-- Exceptions that can leave `getRecentPapers`. -/
inductive JSError where
  /-- A `TypeError` raised by the service's own code. -/
  | typeError (msg : String)
  /-- Whatever `axios.get` threw. -/
  | fetchError (cause : String)
  /-- Whatever `parser.parse` threw. -/
  | parseError (cause : String)
  deriving DecidableEq, Repr

/-- Own-property lookup in an object literal built by the parser. -/
def lookupField (k : String) : List (String × XVal) → JSVal
  | [] => none
  | (k', v) :: rest => if k' = k then some v else lookupField k rest

/-- Value of `v.k` for a value `v` that is not `undefined`.  On objects this is
the own property.  Of the property names the service reads, `feed`, `entry`,
`published`, `author`, `name`, `category`, `_term`, `_rel`, `_title`, `_href`,
`id`, `title`, `summary`, `updated`, `arxiv:comment` and
`arxiv:primary_category` are not defined on any primitive or array.  The two
others exist on strings only: `replace`, which `normText` models, and `link`,
a method whose `_href` is `undefined`, so that line 82 yields `""` for a string
entry just as it does here, where the property reads as absent. -/
def getProp (v : XVal) (k : String) : JSVal :=
  match v with
  | .obj fields => lookupField k fields
  | _ => none

/-- Value of `v.k` where `v` may be `undefined`: reading a property of
`undefined` throws a `TypeError`. -/
def getMember (v : JSVal) (k : String) : Except JSError JSVal :=
  match v with
  | none => .error (.typeError ("Cannot read properties of undefined (reading " ++ k ++ ")"))
  | some x => .ok (getProp x k)

/-- JavaScript truthiness (`ToBoolean`). -/
def truthy : JSVal → Bool
  | none => false
  | some (.str s) => s != ""
  | some (.num n) => n != 0
  | some (.bool b) => b
  | some (.obj _) => true
  | some (.arr _) => true

/-- The expression `a || d` with a default `d` that is a parser-level value. -/
def jsOr (a : JSVal) (d : XVal) : XVal :=
  match a with
  | some v => if truthy (some v) then v else d
  | none => d

/-- The test `v === s` against a string literal `s`. -/
def strictEqStr (v : JSVal) (s : String) : Bool :=
  match v with
  | some (.str t) => t == s
  | _ => false

/-! ## Dates -/

/-- What the service takes from its environment. -/
structure Host where
  /-- Time value (milliseconds since the epoch) of `new Date()` at call start. -/
  now : Int
  /-- Time value of a date after `d.setDate(d.getDate() - 7)` (local time). -/
  sevenDaysBefore : Int → Int
  /-- `Date.parse`; `none` is `NaN`. -/
  dateParse : String → Option Int
  /-- `axios.get(url)` followed by `.data`. -/
  httpGet : String → Except JSError String
  /-- `parser.parse(text)`. -/
  xmlParse : String → Except JSError XVal

/-- `TimeClip`: time values beyond 8.64e15 ms in magnitude are invalid. -/
def timeClip (t : Int) : Option Int :=
  if t.natAbs ≤ 8640000000000000 then some t else none

mutual
/-- `ToString` on parser values (objects print as `[object Object]`, arrays as
their comma-joined elements). -/
def XVal.toStr : XVal → String
  | .str s => s
  | .num n => toString n
  | .bool b => if b then "true" else "false"
  | .obj _ => "[object Object]"
  | .arr items => joinItems items
/-- `Array.prototype.join` with the default separator. -/
def joinItems : List XVal → String
  | [] => ""
  | [x] => x.toStr
  | x :: y :: rest => x.toStr ++ "," ++ joinItems (y :: rest)
end

/-- Time value of `new Date(v)`; `none` is an invalid date. -/
def newDate (H : Host) : JSVal → Option Int
  | none => none
  | some (.str s) => H.dateParse s
  | some (.num n) => timeClip n
  | some (.bool b) => some (if b then 1 else 0)
  | some v => H.dateParse v.toStr

/-- The comparison `d >= cutoff` between two dates, the right one valid. -/
def dateGe (d : Option Int) (cutoff : Int) : Bool :=
  match d with
  | some t => decide (cutoff ≤ t)
  | none => false

/-! ## Text normalisation -/

/-- Characters matched by the regular-expression class `\s`, which are also
the characters removed by `String.prototype.trim`. -/
def isJsSpace (c : Char) : Bool :=
  let n := c.toNat
  (9 ≤ n && n ≤ 13) || n == 32 || n == 160 || n == 5760 ||
  (8192 ≤ n && n ≤ 8202) || n == 8232 || n == 8233 || n == 8239 ||
  n == 8287 || n == 12288 || n == 65279

/-- Scanner for `replace(/\s+/g, " ")`: the flag tells whether the previous
character belonged to a whitespace run that has already been replaced. -/
def collapseAux : Bool → List Char → List Char
  | _, [] => []
  | inRun, c :: cs =>
    if isJsSpace c then
      if inRun then collapseAux true cs else ' ' :: collapseAux true cs
    else c :: collapseAux false cs

/-- The call `s.replace(/\s+/g, " ")` on the characters of `s`. -/
def collapseSpaces (cs : List Char) : List Char := collapseAux false cs

/-- The call `s.trim()` on the characters of `s`. -/
def jsTrim (cs : List Char) : List Char :=
  ((cs.dropWhile isJsSpace).reverse.dropWhile isJsSpace).reverse

/-- The expression `s.replace(/\s+/g, " ").trim()`. -/
def cleanText (s : String) : String :=
  String.mk (jsTrim (collapseSpaces s.data))

/-- The expression `v ? v.replace(/\s+/g, " ").trim() : ""`, where `what` names
the operand in the error message.  Only strings have a `replace` method. -/
def normText (what : String) (v : JSVal) : Except JSError XVal :=
  if truthy v then
    match v with
    | some (.str s) => .ok (.str (cleanText s))
    | _ => .error (.typeError (what ++ ".replace is not a function"))
  else .ok (.str "")

/-! ## Entry normalisation -/

/-- The record built for one retained entry. -/
structure Paper where
  id : JSVal
  title : JSVal
  authors : List JSVal
  summary : JSVal
  published : JSVal
  updated : JSVal
  link : JSVal
  pdfLink : JSVal
  comment : JSVal
  categories : List JSVal
  primaryCategory : JSVal

/-- The single-object-or-array handling shared by `author` and `category`:
an array is mapped element-wise to property `k`, any other truthy value gives
a one-element array, a falsy or absent value gives the empty array. -/
def pluck (field : JSVal) (k : String) : List JSVal :=
  if truthy field then
    match field with
    | some (.arr items) => items.map (fun x => getProp x k)
    | some v => [getProp v k]
    | none => []
  else []

/-- Lines 53-60: the `authors` array. -/
def extractAuthors (entry : XVal) : List JSVal :=
  pluck (getProp entry "author") "name"

/-- Lines 62-70: the `categories` array. -/
def extractCategories (entry : XVal) : List JSVal :=
  pluck (getProp entry "category") "_term"

/-- The callback `(link) => link._rel === "alternate"`. -/
def isAlternate (l : XVal) : Bool := strictEqStr (getProp l "_rel") "alternate"

/-- The callback `(link) => link._title === "pdf"`. -/
def isPdf (l : XVal) : Bool := strictEqStr (getProp l "_title") "pdf"

/-- Lines 73-83: the pair `(mainLink, pdfLink)`. -/
def extractLinks (entry : XVal) : Except JSError (XVal × XVal) :=
  match getProp entry "link" with
  | some (.arr links) => do
    let a ← getMember (links.find? isAlternate) "_href"
    let p ← getMember (links.find? isPdf) "_href"
    pure (jsOr a (.str ""), jsOr p (.str ""))
  | l =>
    if truthy l then
      match l with
      | some v => pure (jsOr (getProp v "_href") (.str ""), .str "")
      | none => pure (.str "", .str "")
    else pure (.str "", .str "")

/-- Lines 99-101: the `primaryCategory` field. -/
def extractPrimary (entry : XVal) : JSVal :=
  match getProp entry "arxiv:primary_category" with
  | some pc => if truthy (some pc) then getProp pc "_term" else some (.str "")
  | none => some (.str "")

/-- The callback of `.map` (lines 51-103). -/
def normalizeEntry (entry : XVal) : Except JSError Paper := do
  let authors := extractAuthors entry
  let categories := extractCategories entry
  let (mainLink, pdfLink) ← extractLinks entry
  let title ← normText "entry.title" (getProp entry "title")
  let summary ← normText "entry.summary" (getProp entry "summary")
  pure
    { id := some (jsOr (getProp entry "id") (.str ""))
      title := some title
      authors := authors
      summary := some summary
      published := some (jsOr (getProp entry "published") (.str ""))
      updated := some (jsOr (getProp entry "updated") (.str ""))
      link := some mainLink
      pdfLink := some pdfLink
      comment := some (jsOr (getProp entry "arxiv:comment") (.str ""))
      categories := categories
      primaryCategory := extractPrimary entry }

/-- `Array.prototype.map` with a callback that may throw: the first exception
aborts the whole map. -/
def normalizeAll : List XVal → Except JSError (List Paper)
  | [] => .ok []
  | e :: es =>
    match normalizeEntry e with
    | .error err => .error err
    | .ok p =>
      match normalizeAll es with
      | .error err => .error err
      | .ok ps => .ok (p :: ps)

/-! ## Window filter -/

/-- The callback of `.filter` (lines 47-50). -/
def inWindow (H : Host) (cutoff : Int) (entry : XVal) : Bool :=
  dateGe (newDate H (getProp entry "published")) cutoff

/-- The call `entryArray.filter(...)` of lines 46-50. -/
def windowFilter (H : Host) (cutoff : Int) (entries : List XVal) : List XVal :=
  entries.filter (inWindow H cutoff)

/-! ## The pipeline -/

/-- Lines 42-43: `result.feed.entry || []`, coerced to an array. -/
def entryArray (result : XVal) : Except JSError (List XVal) := do
  let raw ← getMember (getProp result "feed") "entry"
  match jsOr raw (.arr []) with
  | .arr items => pure items
  | single => pure [single]

/-- Lines 41-103 and 106: from the parsed document to the returned papers. -/
def processFeed (H : Host) (cutoff : Int) (result : XVal) :
    Except JSError (List Paper) := do
  let entries ← entryArray result
  normalizeAll (windowFilter H cutoff entries)

/-- Lines 23-26: the query before URL encoding. -/
def searchQuery : String :=
  "cat:cs.AI OR cat:cs.LG OR cat:cs.CV OR cat:cs.CL OR cat:stat.ML" ++
    " AND (all:deep learning OR all:neural network OR all:machine learning)"

/-- Upper-case hexadecimal digit. -/
def hexDigit (n : Nat) : Char :=
  if n < 10 then Char.ofNat (48 + n) else Char.ofNat (55 + n)

/-- The escape `%XY` of one byte. -/
def percentByte (b : Nat) : List Char :=
  ['%', hexDigit (b / 16), hexDigit (b % 16)]

/-- UTF-8 bytes of a code point. -/
def utf8Bytes (n : Nat) : List Nat :=
  if n < 128 then [n]
  else if n < 2048 then [192 + n / 64, 128 + n % 64]
  else if n < 65536 then [224 + n / 4096, 128 + (n / 64) % 64, 128 + n % 64]
  else [240 + n / 262144, 128 + (n / 4096) % 64, 128 + (n / 64) % 64, 128 + n % 64]

/-- Characters `encodeURIComponent` leaves alone: ASCII letters and digits and
the marks `- _ . ! ~ * ( )` and the apostrophe. -/
def uriUnreserved (c : Char) : Bool :=
  c.isAlphanum || c == '-' || c == '_' || c == '.' || c == '!' || c == '~' ||
  c == '*' || c.toNat == 39 || c == '(' || c == ')'

/-- The global function `encodeURIComponent`. -/
def encodeURIComponent (s : String) : String :=
  String.mk (s.data.flatMap (fun c =>
    if uriUnreserved c then [c] else (utf8Bytes c.toNat).flatMap percentByte))

/-- A value passed as `maxResults`, by what the template literal of line 29
prints for it.  An integer-valued number in the safe range (magnitude at most
2^53 - 1) is printed as its decimal numeral.  Every other number, whose text
comes from the float-to-string conversion (`1e+21`, `0.5`, `NaN`,
`Infinity`), and every other value the conversion accepts (`null`, a string, a
boolean) is given by the text it is converted to.  The JSDoc declares the
parameter a number; values whose conversion throws (symbols) have no
counterpart here. -/
inductive ArgValue where
  | int (n : Int) (safe : n.natAbs ≤ 9007199254740991)
  | other (text : String)

/-- The text of `${maxResults}` for a value that is not `undefined`. -/
def ArgValue.text : ArgValue → String
  | .int n _ => toString n
  | .other t => t

/-- The default `maxResults = 50` of line 14. -/
def defaultMaxResults : ArgValue := .int 50 (by decide)

/-- Line 29: the request URL.  An omitted argument takes the default 50. -/
def apiUrl (maxResults : Option ArgValue) : String :=
  "http://export.arxiv.org/api/query?search_query=" ++ encodeURIComponent searchQuery ++
    "&sortBy=submittedDate&sortOrder=descending&max_results=" ++
    (maxResults.getD defaultMaxResults).text

/-- The method `arxivService.getRecentPapers`.  The `catch` block logs and
rethrows the error it caught, so it does not change the outcome. -/
def getRecentPapers (H : Host) (maxResults : Option ArgValue) :
    Except JSError (List Paper) := do
  let sevenDaysAgo := H.sevenDaysBefore H.now
  let response ← H.httpGet (apiUrl maxResults)
  let result ← H.xmlParse response
  processFeed H sevenDaysAgo result

/-- The expression `found._href || ""` applied to a link element. -/
def hrefOrEmpty (l : XVal) : XVal := jsOr (getProp l "_href") (.str "")

/-- A host whose XML parser answers with the given document. -/
def Host.withDocument (H : Host) (doc : XVal) : Host :=
  { H with xmlParse := fun _ => .ok doc }

/-! ## Reading the search query

The specification describes the query through its boolean structure, "read
with AND binding tighter than OR and parentheses grouping".  The definitions of
this section implement that reading; they come from the specification's words,
not from the source, and are used to compare the string the source builds
(`searchQuery`) with the structure the specification states. -/

/-- Boolean structure of a query under the specification's reading. -/
inductive SpecQuery where
  | term (phrase : String)
  | and (l r : SpecQuery)
  | or (l r : SpecQuery)
  deriving DecidableEq, Repr

/-- Lexical units of a query string. -/
inductive SpecToken where
  | lparen
  | rparen
  | opAnd
  | opOr
  | word (w : String)
  deriving DecidableEq, Repr

/-- The token for a finished run of non-blank characters (held reversed). -/
def specFlush (acc : List Char) : List SpecToken :=
  if acc = [] then []
  else
    let w := String.mk acc.reverse
    if w = "AND" then [.opAnd] else if w = "OR" then [.opOr] else [.word w]

/-- Splits a query at blanks and parentheses. -/
def specTokenize : List Char → List Char → List SpecToken
  | [], acc => specFlush acc
  | c :: cs, acc =>
    if c = ' ' then specFlush acc ++ specTokenize cs []
    else if c = '(' then specFlush acc ++ .lparen :: specTokenize cs []
    else if c = ')' then specFlush acc ++ .rparen :: specTokenize cs []
    else specTokenize cs (c :: acc)

/-- Consumes the words that continue a phrase. -/
def specPhrase (first : String) : List SpecToken → String × List SpecToken
  | .word w :: rest => specPhrase (first ++ " " ++ w) rest
  | rest => (first, rest)

mutual
/-- Disjunction level: conjunctions separated by `OR`. -/
def specParseOr : Nat → List SpecToken → Option (SpecQuery × List SpecToken)
  | 0, _ => none
  | fuel + 1, ts =>
    match specParseAnd fuel ts with
    | some (q, rest) => specOrTail fuel q rest
    | none => none
/-- Continuation of a disjunction. -/
def specOrTail : Nat → SpecQuery → List SpecToken → Option (SpecQuery × List SpecToken)
  | 0, _, _ => none
  | fuel + 1, q, .opOr :: ts =>
    match specParseAnd fuel ts with
    | some (r, rest) => specOrTail fuel (.or q r) rest
    | none => none
  | _ + 1, q, ts => some (q, ts)
/-- Conjunction level: atoms separated by `AND`. -/
def specParseAnd : Nat → List SpecToken → Option (SpecQuery × List SpecToken)
  | 0, _ => none
  | fuel + 1, ts =>
    match specParseAtom fuel ts with
    | some (q, rest) => specAndTail fuel q rest
    | none => none
/-- Continuation of a conjunction. -/
def specAndTail : Nat → SpecQuery → List SpecToken → Option (SpecQuery × List SpecToken)
  | 0, _, _ => none
  | fuel + 1, q, .opAnd :: ts =>
    match specParseAtom fuel ts with
    | some (r, rest) => specAndTail fuel (.and q r) rest
    | none => none
  | _ + 1, q, ts => some (q, ts)
/-- A phrase or a parenthesised query. -/
def specParseAtom : Nat → List SpecToken → Option (SpecQuery × List SpecToken)
  | 0, _ => none
  | fuel + 1, .lparen :: ts =>
    match specParseOr fuel ts with
    | some (q, .rparen :: rest) => some (q, rest)
    | _ => none
  | _ + 1, .word w :: ts =>
    let (phrase, rest) := specPhrase w ts
    some (.term phrase, rest)
  | _ + 1, _ => none
end

/-- The boolean structure of a query string, if it is well formed. -/
def specReadQuery (s : String) : Option SpecQuery :=
  let ts := specTokenize s.data []
  match specParseOr (4 * ts.length + 4) ts with
  | some (q, []) => some q
  | _ => none

/-- Left-nested disjunction of a non-empty list of terms. -/
def specAny (first : String) (rest : List String) : SpecQuery :=
  rest.foldl (fun q t => .or q (.term t)) (.term first)

/-- The structure the specification states: the category group AND the
keyword group. -/
def specStatedQuery : SpecQuery :=
  .and (specAny "cat:cs.AI" ["cat:cs.LG", "cat:cs.CV", "cat:cs.CL", "cat:stat.ML"])
    (specAny "all:deep learning" ["all:neural network", "all:machine learning"])

/-! ## Properties used in the statements -/

/-- Text without whitespace other than single separating spaces: every
whitespace character is U+0020, no two whitespace characters are adjacent, and
neither the first nor the last character is whitespace. -/
def Tidy (cs : List Char) : Prop :=
  (∀ c ∈ cs, isJsSpace c = true → c = ' ') ∧
  List.Chain' (fun a b => ¬ (isJsSpace a = true ∧ isJsSpace b = true)) cs ∧
  (∀ c ∈ cs.head?, isJsSpace c = false) ∧
  (∀ c ∈ cs.getLast?, isJsSpace c = false)

/-- The filter's criterion: `published` denotes a valid time not earlier than
the cutoff. -/
def PublishedSince (H : Host) (cutoff : Int) (entry : XVal) : Prop :=
  ∃ t, newDate H (getProp entry "published") = some t ∧ cutoff ≤ t

/-! ## Sample data -/

/-- `Date.parse` on the time stamps used in the examples. -/
def sampleParse (s : String) : Option Int :=
  if s = "2024-01-15T06:00:00Z" then some 1705298400000
  else if s = "2024-01-14T12:00:00Z" then some 1705233600000
  else if s = "2024-01-10T00:00:00Z" then some 1704844800000
  else if s = "2024-01-07T12:00:00Z" then some 1704628800000
  else none

/-- A host in a zone without clock changes, called at 2024-01-15T12:00:00Z,
whose request succeeds and parses to `doc`. -/
def sampleHost (doc : XVal) : Host where
  now := 1705320000000
  sevenDaysBefore := fun t => t - 604800000
  dateParse := sampleParse
  httpGet := fun _ => .ok "<feed/>"
  xmlParse := fun _ => .ok doc

/-- The cutoff of `sampleHost`: 2024-01-08T12:00:00Z. -/
def sampleCutoff : Int := 1704715200000

/-- A parsed document whose feed holds the given entry collection. -/
def feedOf (entries : XVal) : XVal :=
  .obj [("feed", .obj [("title", .str "ArXiv Query"), ("entry", entries)])]

/-- An entry published one day before the sample call, with the given links. -/
def entryWithLinks (links : XVal) : XVal :=
  .obj [("id", .str "http://arxiv.org/abs/2401.00001v1"),
        ("updated", .str "2024-01-14T12:00:00Z"),
        ("published", .str "2024-01-14T12:00:00Z"),
        ("title", .str "Deep\n  learning"),
        ("summary", .str "  A   study.\n"),
        ("author", .obj [("name", .str "A. Author")]),
        ("link", links),
        ("category", .obj [("_term", .str "cs.LG")])]

/-- An entry with nothing but a publication time. -/
def entryAt (published : String) : XVal :=
  .obj [("published", .str published)]

/-- Two links, none of them with relation `alternate`. -/
def linksNoAlternate : XVal :=
  .arr [.obj [("_title", .str "pdf"), ("_href", .str "C"), ("_rel", .str "related")],
        .obj [("_title", .str "doi"), ("_href", .str "D"), ("_rel", .str "related")]]

/-- Two links, none of them with title `pdf`. -/
def linksNoPdf : XVal :=
  .arr [.obj [("_href", .str "B"), ("_rel", .str "alternate")],
        .obj [("_title", .str "doi"), ("_href", .str "D"), ("_rel", .str "related")]]

/-- The link list of the specification's example. -/
def linksExample : XVal :=
  .arr [.obj [("_rel", .str "self"), ("_href", .str "A")],
        .obj [("_rel", .str "alternate"), ("_href", .str "B")],
        .obj [("_title", .str "pdf"), ("_href", .str "C")]]

/-- An in-window entry whose only author element has an affiliation but no
name. -/
def entryNamelessAuthor : XVal :=
  .obj [("id", .str "http://arxiv.org/abs/2401.00002v1"),
        ("updated", .str "2024-01-14T12:00:00Z"),
        ("published", .str "2024-01-14T12:00:00Z"),
        ("title", .str "Untitled"),
        ("summary", .str "None."),
        ("author", .obj [("arxiv:affiliation", .str "MIT")]),
        ("link", .obj [("_href", .str "B"), ("_rel", .str "alternate")])]

/-- An entry with two authors. -/
def entryTwoAuthors : XVal :=
  .obj [("published", .str "2024-01-14T12:00:00Z"),
        ("author", .arr [.obj [("name", .str "Ada")], .obj [("name", .str "Bob")]])]

/-- The paper normalised from `entryWithLinks linksExample`. -/
def paperExample : Paper :=
  { id := some (.str "http://arxiv.org/abs/2401.00001v1")
    title := some (.str "Deep learning")
    authors := [some (.str "A. Author")]
    summary := some (.str "A study.")
    published := some (.str "2024-01-14T12:00:00Z")
    updated := some (.str "2024-01-14T12:00:00Z")
    link := some (.str "B")
    pdfLink := some (.str "C")
    comment := some (.str "")
    categories := [some (.str "cs.LG")]
    primaryCategory := some (.str "") }

/-! ## Local time

`sevenDaysAgo.setDate(today.getDate() - 7)` works on the local calendar.
`getDate()` is the day of the month of the local time of `today`; `setDate`
rebuilds the local time from the same year and month, the day `getDate() - 7`
and the same time within the day, and converts the result back to UTC.  The day
number of that local time is the day number of the local time of `today` minus
seven, so the rebuilt local time is the local time of `today` minus seven days'
worth of milliseconds; the UTC offset used on the way back is the one in force
at the rebuilt local time. -/

/-- The host's time zone: the offset of local time from UTC, in milliseconds,
as a function of a UTC time value and as a function of a local time value. -/
structure Zone where
  offsetAtUtc : Int → Int
  offsetAtLocal : Int → Int

/-- Milliseconds in seven days. -/
def sevenDaysMs : Int := 604800000

/-- Time value of a date with time value `t` after
`d.setDate(d.getDate() - 7)` in zone `Z`. -/
def setDateBack7 (Z : Zone) (t : Int) : Int :=
  let localTime := t + Z.offsetAtUtc t
  let moved := localTime - sevenDaysMs
  moved - Z.offsetAtLocal moved

/-- A zone whose offset never changes. -/
def fixedZone (offset : Int) : Zone :=
  { offsetAtUtc := fun _ => offset, offsetAtLocal := fun _ => offset }

/-- America/New_York in 2024: UTC-5, and UTC-4 from 2024-03-10T07:00:00Z to
2024-11-03T06:00:00Z (local clock readings from 03:00 on 10 March up to 02:00
on 3 November). -/
def newYork2024 : Zone :=
  { offsetAtUtc := fun t =>
      if 1710054000000 ≤ t ∧ t < 1730613600000 then -14400000 else -18000000
    offsetAtLocal := fun t =>
      if 1710039600000 ≤ t ∧ t < 1730599200000 then -14400000 else -18000000 }

/-- `Date.parse` on the time stamps used in the New York example. -/
def marchParse (s : String) : Option Int :=
  if s = "2024-03-05T12:00:00Z" then some 1709640000000
  else if s = "2024-03-05T13:00:00Z" then some 1709643600000
  else none

/-- A host in New York called at 2024-03-12T12:00:00Z (08:00 local time, two
days after the clocks went forward), whose request succeeds and parses to
`doc`. -/
def newYorkHost (doc : XVal) : Host where
  now := 1710244800000
  sevenDaysBefore := setDateBack7 newYork2024
  dateParse := marchParse
  httpGet := fun _ => .ok "<feed/>"
  xmlParse := fun _ => .ok doc

/-- A host in UTC whose clock reads 1970-01-03T00:00:00Z, whose request
succeeds and parses to `doc`. -/
def epochHost (doc : XVal) : Host where
  now := 172800000
  sevenDaysBefore := setDateBack7 (fixedZone 0)
  dateParse := sampleParse
  httpGet := fun _ => .ok "<feed/>"
  xmlParse := fun _ => .ok doc

/-- An entry whose `published` element holds the text `0`, which the parser
turns into the number 0. -/
def entryPublishedZero : XVal :=
  .obj [("id", .str "http://arxiv.org/abs/0000.00000v1"),
        ("published", .num 0),
        ("title", .str "Epoch")]

/-- An entry published eight days before the sample call whose link list is
empty of `alternate` and `pdf` elements. -/
def entryStale : XVal :=
  .obj [("id", .str "http://arxiv.org/abs/2401.00000v1"),
        ("published", .str "2024-01-07T12:00:00Z"),
        ("title", .str "Stale"),
        ("link", .arr [.obj [("_rel", .str "related"), ("_href", .str "D")],
                       .obj [("_rel", .str "related"), ("_href", .str "E")]])]

/-- An entry with a single link object, a single author object and a single
category object. -/
def entrySingles : XVal :=
  .obj [("published", .str "2024-01-14T12:00:00Z"),
        ("author", .obj [("name", .str "Ada")]),
        ("category", .obj [("_term", .str "cs.LG"), ("_scheme", .str "http://arxiv.org/schemas/atom")]),
        ("link", .obj [("_href", .str "B"), ("_rel", .str "alternate")])]

/-- An entry with two category elements and neither author nor link. -/
def entryTwoCategories : XVal :=
  .obj [("published", .str "2024-01-14T12:00:00Z"),
        ("category", .arr [.obj [("_term", .str "cs.LG")], .obj [("_term", .str "stat.ML")]])]

/-- The query of `searchQuery` after `encodeURIComponent`. -/
def encodedQuery : String :=
  "cat%3Acs.AI%20OR%20cat%3Acs.LG%20OR%20cat%3Acs.CV%20OR%20cat%3Acs.CL%20OR%20cat%3Astat.ML" ++
    "%20AND%20(all%3Adeep%20learning%20OR%20all%3Aneural%20network%20OR%20all%3Amachine%20learning)"

/-- A host whose request fails with the given error. -/
def failingHost (err : JSError) : Host where
  now := 1705320000000
  sevenDaysBefore := fun t => t - 604800000
  dateParse := sampleParse
  httpGet := fun _ => .error err
  xmlParse := fun _ => .ok (.obj [])

/-- A host whose request succeeds and whose parser throws the given error. -/
def unparsableHost (err : JSError) : Host where
  now := 1705320000000
  sevenDaysBefore := fun t => t - 604800000
  dateParse := sampleParse
  httpGet := fun _ => .ok "<feed"
  xmlParse := fun _ => .error err

/-! ## General facts about the embedding -/

/-- A successful normalisation is the record assembled from the successful
link, title and summary steps. -/
theorem normalizeEntry_ok {entry : XVal} {paper : Paper}
    (h : normalizeEntry entry = .ok paper) :
    ∃ m p t s, extractLinks entry = .ok (m, p) ∧
      normText "entry.title" (getProp entry "title") = .ok t ∧
      normText "entry.summary" (getProp entry "summary") = .ok s ∧
      paper =
        { id := some (jsOr (getProp entry "id") (.str ""))
          title := some t
          authors := extractAuthors entry
          summary := some s
          published := some (jsOr (getProp entry "published") (.str ""))
          updated := some (jsOr (getProp entry "updated") (.str ""))
          link := some m
          pdfLink := some p
          comment := some (jsOr (getProp entry "arxiv:comment") (.str ""))
          categories := extractCategories entry
          primaryCategory := extractPrimary entry } := by
  unfold normalizeEntry at h
  cases hl : extractLinks entry with
  | error e => rw [hl] at h; cases h
  | ok mp =>
    obtain ⟨m, p⟩ := mp
    cases ht : normText "entry.title" (getProp entry "title") with
    | error e => rw [hl, ht] at h; cases h
    | ok t =>
      cases hs : normText "entry.summary" (getProp entry "summary") with
      | error e => rw [hl, ht, hs] at h; cases h
      | ok s =>
        rw [hl, ht, hs] at h
        refine ⟨m, p, t, s, rfl, rfl, rfl, ?_⟩
        cases h
        rfl

/-- The link step on an array-valued `link` field. -/
theorem extractLinks_array {entry : XVal} {links : List XVal}
    (h : getProp entry "link" = some (.arr links)) :
    extractLinks entry =
      (getMember (links.find? isAlternate) "_href" >>= fun a =>
        getMember (links.find? isPdf) "_href" >>= fun p =>
          pure (jsOr a (.str ""), jsOr p (.str ""))) := by
  unfold extractLinks
  rw [h]

/-- An array-valued `link` field without an `alternate` element makes the
normalisation of the entry throw. -/
theorem normalizeEntry_no_alternate {entry : XVal} {links : List XVal}
    (h : getProp entry "link" = some (.arr links))
    (hno : links.find? isAlternate = none) :
    normalizeEntry entry =
      .error (.typeError "Cannot read properties of undefined (reading _href)") := by
  have hl : extractLinks entry =
      .error (.typeError "Cannot read properties of undefined (reading _href)") := by
    rw [extractLinks_array h, hno]; rfl
  unfold normalizeEntry
  rw [hl]; rfl

/-- An array-valued `link` field with an `alternate` element but without a
`pdf` element makes the normalisation of the entry throw. -/
theorem normalizeEntry_no_pdf {entry : XVal} {links : List XVal} {a : XVal}
    (h : getProp entry "link" = some (.arr links))
    (ha : links.find? isAlternate = some a)
    (hno : links.find? isPdf = none) :
    normalizeEntry entry =
      .error (.typeError "Cannot read properties of undefined (reading _href)") := by
  have hl : extractLinks entry =
      .error (.typeError "Cannot read properties of undefined (reading _href)") := by
    rw [extractLinks_array h, ha, hno]; rfl
  unfold normalizeEntry
  rw [hl]; rfl

/-- The filter callback holds exactly for entries published since the cutoff. -/
theorem inWindow_iff (H : Host) (cutoff : Int) (e : XVal) :
    inWindow H cutoff e = true ↔ PublishedSince H cutoff e := by
  unfold inWindow PublishedSince dateGe
  cases newDate H (getProp e "published") with
  | none => simp
  | some t => simp

/-- A falsy parser value has no `published` property, so the filter drops it. -/
theorem inWindow_of_not_truthy (H : Host) (cutoff : Int) (v : XVal)
    (h : truthy (some v) = false) : inWindow H cutoff v = false := by
  cases v with
  | str s => rfl
  | num n => rfl
  | bool b => rfl
  | obj fs => simp [truthy] at h
  | arr xs => simp [truthy] at h

/-- Lines 42-43 on an `entry` that is not an array. -/
theorem entryArray_single {doc feed v : XVal}
    (hf : getProp doc "feed" = some feed) (he : getProp feed "entry" = some v)
    (hv : ∀ items, v ≠ .arr items) :
    entryArray doc = .ok (if truthy (some v) then [v] else []) := by
  unfold entryArray
  rw [hf]
  simp only [getMember, he]
  cases v with
  | arr xs => exact absurd rfl (hv xs)
  | str s =>
    by_cases h : s = ""
    · subst h; rfl
    · simp [jsOr, truthy, h, bind, Except.bind, pure, Except.pure]
  | num n =>
    by_cases h : n = 0
    · subst h; rfl
    · simp [jsOr, truthy, h, bind, Except.bind, pure, Except.pure]
  | bool b => cases b <;> rfl
  | obj fs => rfl

/-- Lines 42-43 on an `entry` that is an array. -/
theorem entryArray_list {doc feed : XVal} {items : List XVal}
    (hf : getProp doc "feed" = some feed) (he : getProp feed "entry" = some (.arr items)) :
    entryArray doc = .ok items := by
  unfold entryArray
  rw [hf]
  simp only [getMember, he, jsOr]
  rfl

/-- The pipeline on a single-object `entry` treats it as a one-element list. -/
theorem processFeed_single {H : Host} {cutoff : Int} {doc feed v : XVal}
    (hf : getProp doc "feed" = some feed) (he : getProp feed "entry" = some v)
    (hv : ∀ items, v ≠ .arr items) :
    processFeed H cutoff doc = normalizeAll (windowFilter H cutoff [v]) := by
  unfold processFeed
  rw [entryArray_single hf he hv]
  by_cases ht : truthy (some v) = true
  · simp only [ht, if_true]; rfl
  · have ht' : truthy (some v) = false := by simpa using ht
    have hw : windowFilter H cutoff [v] = [] := by
      unfold windowFilter
      simp [inWindow_of_not_truthy H cutoff v ht']
    rw [hw]
    simp only [ht']
    rfl

/-- The pipeline on an array-valued `entry`. -/
theorem processFeed_list {H : Host} {cutoff : Int} {doc feed : XVal} {items : List XVal}
    (hf : getProp doc "feed" = some feed) (he : getProp feed "entry" = some (.arr items)) :
    processFeed H cutoff doc = normalizeAll (windowFilter H cutoff items) := by
  unfold processFeed
  rw [entryArray_list hf he]
  rfl

/-- The call as a fetch followed by the processing of the parsed document. -/
theorem getRecentPapers_withDocument (H : Host) (maxResults : Option ArgValue) (doc : XVal) :
    getRecentPapers (H.withDocument doc) maxResults =
      (H.httpGet (apiUrl maxResults) >>= fun _ =>
        processFeed H (H.sevenDaysBefore H.now) doc) := by
  rfl

/-- After the replacement every whitespace character is U+0020. -/
theorem collapseAux_space (cs : List Char) :
    ∀ (b : Bool), ∀ c ∈ collapseAux b cs, isJsSpace c = true → c = ' ' := by
  induction cs with
  | nil => intro b c hc; simp [collapseAux] at hc
  | cons x xs ih =>
    intro b c hc hs
    unfold collapseAux at hc
    by_cases hx : isJsSpace x = true
    · rw [if_pos hx] at hc
      cases b with
      | true => exact ih true c (by simpa using hc) hs
      | false =>
        simp only [Bool.false_eq_true, if_false, List.mem_cons] at hc
        rcases hc with rfl | hc
        · rfl
        · exact ih true c hc hs
    · rw [if_neg hx] at hc
      rcases List.mem_cons.1 hc with rfl | hc
      · exact absurd hs hx
      · exact ih false c hc hs

/-- After the replacement no two whitespace characters are adjacent, and a
scan that starts inside a run does not start its output with whitespace. -/
theorem collapseAux_chain (cs : List Char) :
    ∀ (b : Bool),
      List.Chain' (fun a b => ¬ (isJsSpace a = true ∧ isJsSpace b = true)) (collapseAux b cs) ∧
      (b = true → ∀ x ∈ (collapseAux b cs).head?, isJsSpace x = false) := by
  induction cs with
  | nil => intro b; simp [collapseAux]
  | cons x xs ih =>
    intro b
    unfold collapseAux
    by_cases hx : isJsSpace x = true
    · rw [if_pos hx]
      cases b with
      | true => simpa using ih true
      | false =>
        simp only [Bool.false_eq_true, if_false, false_implies, and_true]
        refine List.chain'_cons'.2 ⟨?_, (ih true).1⟩
        intro y hy hyy
        have := (ih true).2 rfl y hy
        rw [this] at hyy
        exact Bool.false_ne_true hyy.2
    · rw [if_neg hx]
      refine ⟨List.chain'_cons'.2 ⟨fun y _ hyy => hx hyy.1, (ih false).1⟩, ?_⟩
      intro _ y hy
      simp only [List.head?_cons, Option.mem_def, Option.some.injEq] at hy
      subst hy
      simpa using hx

/-- Trimming a text whose whitespace is already collapsed makes it tidy. -/
theorem jsTrim_tidy (cs : List Char)
    (hsp : ∀ c ∈ cs, isJsSpace c = true → c = ' ')
    (hch : List.Chain' (fun a b => ¬ (isJsSpace a = true ∧ isJsSpace b = true)) cs) :
    Tidy (jsTrim cs) := by
  have hd : List.dropWhile isJsSpace cs <:+ cs := List.dropWhile_suffix _
  have ht : jsTrim cs <+: List.dropWhile isJsSpace cs := List.rdropWhile_prefix _ _
  refine ⟨?_, ?_, ?_, ?_⟩
  · intro c hc
    exact hsp c (hd.subset (ht.subset hc))
  · exact List.Chain'.prefix (List.Chain'.suffix hch hd) ht
  · intro c hc
    have hne : jsTrim cs ≠ [] := by
      intro h; rw [h] at hc; simp at hc
    have h1 := ht.head hne
    have h2 := List.head_dropWhile_not isJsSpace cs (ht.ne_nil hne)
    rw [← h1] at h2
    rw [List.head?_eq_head hne] at hc
    simp only [Option.mem_def, Option.some.injEq] at hc
    rw [← hc]; exact h2
  · intro c hc
    obtain ⟨hne, rfl⟩ := List.mem_getLast?_eq_getLast hc
    have := List.rdropWhile_last_not isJsSpace (List.dropWhile isJsSpace cs) hne
    simpa using this

/-- The text `s.replace(/\s+/g, " ").trim()` is tidy. -/
theorem cleanText_tidy (s : String) : Tidy (cleanText s).data :=
  jsTrim_tidy _ (collapseAux_space s.data false) (collapseAux_chain s.data false).1

/-- A successful title or summary step yields a tidy string, the cleaned
input when the input is a string. -/
theorem normText_ok {what : String} {v : JSVal} {x : XVal}
    (h : normText what v = .ok x) :
    ∃ t : String, x = .str t ∧ Tidy t.data ∧
      ∀ s, v = some (.str s) → t = cleanText s := by
  unfold normText at h
  by_cases ht : truthy v = true
  · rw [if_pos ht] at h
    match v, h with
    | some (.str s), h =>
      cases h
      exact ⟨cleanText s, rfl, cleanText_tidy s, fun s' hs => by cases hs; rfl⟩
  · rw [if_neg ht] at h
    cases h
    refine ⟨"", rfl, ?_, ?_⟩
    · exact ⟨by simp, by simp, by simp, by simp⟩
    · intro s hs
      subst hs
      have : s = "" := by simpa [truthy] using ht
      subst this
      rfl

/-- The call as its three steps: request, parse, processing of the document
with the one cutoff computed at call start. -/
theorem getRecentPapers_steps (H : Host) (maxResults : Option ArgValue) :
    getRecentPapers H maxResults =
      (H.httpGet (apiUrl maxResults) >>= fun body =>
        H.xmlParse body >>= fun doc =>
          processFeed H (H.sevenDaysBefore H.now) doc) :=
  rfl

/-- A successful map returns one paper per entry. -/
theorem normalizeAll_length :
    ∀ {l : List XVal} {ps : List Paper}, normalizeAll l = .ok ps → ps.length = l.length := by
  intro l
  induction l with
  | nil => intro ps h; cases h; rfl
  | cons e es ih =>
    intro ps h
    unfold normalizeAll at h
    cases he : normalizeEntry e with
    | error err => rw [he] at h; cases h
    | ok p =>
      cases hes : normalizeAll es with
      | error err => rw [he, hes] at h; cases h
      | ok qs =>
        rw [he, hes] at h
        cases h
        simp [ih hes]

/-- Every paper of a successful map is the normalisation of one of the
entries. -/
theorem normalizeAll_mem :
    ∀ {l : List XVal} {ps : List Paper}, normalizeAll l = .ok ps →
      ∀ p ∈ ps, ∃ e ∈ l, normalizeEntry e = .ok p := by
  intro l
  induction l with
  | nil => intro ps h p hp; cases h; simp at hp
  | cons e es ih =>
    intro ps h p hp
    unfold normalizeAll at h
    cases he : normalizeEntry e with
    | error err => rw [he] at h; cases h
    | ok q =>
      cases hes : normalizeAll es with
      | error err => rw [he, hes] at h; cases h
      | ok qs =>
        rw [he, hes] at h
        cases h
        rcases List.mem_cons.1 hp with rfl | hp
        · exact ⟨e, List.mem_cons_self _ _, he⟩
        · obtain ⟨x, hx, hxp⟩ := ih hes p hp
          exact ⟨x, List.mem_cons_of_mem _ hx, hxp⟩

/-- One failing entry makes the whole map fail. -/
theorem normalizeAll_error_of_mem :
    ∀ {l : List XVal} {e : XVal} {err : JSError}, e ∈ l → normalizeEntry e = .error err →
      ∃ err', normalizeAll l = .error err' := by
  intro l
  induction l with
  | nil => intro e err he; simp at he
  | cons x xs ih =>
    intro e err he herr
    unfold normalizeAll
    cases hx : normalizeEntry x with
    | error err' => exact ⟨err', rfl⟩
    | ok p =>
      rcases List.mem_cons.1 he with rfl | he
      · rw [hx] at herr; cases herr
      · obtain ⟨err', h'⟩ := ih he herr
        rw [h']
        exact ⟨err', rfl⟩

/-- The link step on a `link` field that is present and not an array. -/
theorem extractLinks_single {entry l : XVal}
    (h : getProp entry "link" = some l) (hl : ∀ items, l ≠ .arr items) :
    extractLinks entry = .ok (hrefOrEmpty l, .str "") := by
  unfold extractLinks
  rw [h]
  cases l with
  | arr xs => exact absurd rfl (hl xs)
  | str s =>
    by_cases hs : s = ""
    · subst hs; rfl
    · simp [truthy, hs, hrefOrEmpty, pure, Except.pure]
  | num n =>
    by_cases hn : n = 0
    · subst hn; rfl
    · simp [truthy, hn, hrefOrEmpty, pure, Except.pure]
  | bool b => cases b <;> rfl
  | obj fs => rfl

/-- The link step on an entry without a `link` field. -/
theorem extractLinks_absent {entry : XVal} (h : getProp entry "link" = none) :
    extractLinks entry = .ok (.str "", .str "") := by
  unfold extractLinks
  rw [h]
  rfl

/-- The shared single-or-list handling on an array. -/
theorem pluck_arr (items : List XVal) (k : String) :
    pluck (some (.arr items)) k = items.map (fun x => getProp x k) :=
  rfl

/-- The shared single-or-list handling on a single object. -/
theorem pluck_obj (fields : List (String × XVal)) (k : String) :
    pluck (some (.obj fields)) k = [getProp (.obj fields) k] :=
  rfl

/-- The shared single-or-list handling on an absent field. -/
theorem pluck_none (k : String) : pluck none k = [] :=
  rfl

/-- An entry without a `published` field is dropped by the filter. -/
theorem inWindow_absent (H : Host) (cutoff : Int) {e : XVal}
    (h : getProp e "published" = none) : inWindow H cutoff e = false := by
  unfold inWindow
  rw [h]
  rfl

/-- An entry whose `published` is not a valid date is dropped by the filter. -/
theorem inWindow_invalid (H : Host) (cutoff : Int) {e : XVal}
    (h : newDate H (getProp e "published") = none) : inWindow H cutoff e = false := by
  unfold inWindow
  rw [h]
  rfl

/-- An entry published before the cutoff is dropped by the filter. -/
theorem inWindow_earlier (H : Host) (cutoff : Int) {e : XVal} {t : Int}
    (h : newDate H (getProp e "published") = some t) (ht : t < cutoff) :
    inWindow H cutoff e = false := by
  unfold inWindow dateGe
  rw [h]
  simpa using ht

/-- The pipeline in terms of the entry array. -/
theorem processFeed_of_entryArray {H : Host} {cutoff : Int} {doc : XVal}
    {entries : List XVal} (h : entryArray doc = .ok entries) :
    processFeed H cutoff doc = normalizeAll (windowFilter H cutoff entries) := by
  unfold processFeed
  rw [h]
  rfl

/-- A successful pipeline has a successful entry array. -/
theorem processFeed_ok {H : Host} {cutoff : Int} {doc : XVal} {papers : List Paper}
    (h : processFeed H cutoff doc = .ok papers) :
    ∃ entries, entryArray doc = .ok entries ∧
      normalizeAll (windowFilter H cutoff entries) = .ok papers := by
  cases he : entryArray doc with
  | error err =>
    unfold processFeed at h
    rw [he] at h
    cases h
  | ok entries =>
    rw [processFeed_of_entryArray he] at h
    exact ⟨entries, rfl, h⟩

/-! ## Claims -/

/-- C1. The claim asks that an in-window entry whose link list has no
`alternate` element is normalised with an empty `link`.  On such a feed the
call throws a `TypeError` instead: `find` returns `undefined` and its `_href`
is read without a presence check. -/
theorem getRecentPapers_throws_without_alternate :
    inWindow (sampleHost (feedOf (.arr []))) sampleCutoff
        (entryWithLinks linksNoAlternate) = true ∧
    getRecentPapers (sampleHost (feedOf (entryWithLinks linksNoAlternate))) none =
      .error (.typeError "Cannot read properties of undefined (reading _href)") ∧
    getRecentPapers (sampleHost (feedOf (entryWithLinks (.arr [])))) none =
      .error (.typeError "Cannot read properties of undefined (reading _href)") :=
  ⟨rfl, rfl, rfl⟩

/-- C2. The claim asks that every field and element of a normalised paper is
a string.  For an in-window entry whose author element carries no name the
call returns a paper whose `authors` array holds `undefined`. -/
theorem getRecentPapers_undefined_author :
    getRecentPapers (sampleHost (feedOf entryNamelessAuthor)) none =
      .ok [{ id := some (.str "http://arxiv.org/abs/2401.00002v1")
             title := some (.str "Untitled")
             authors := [none]
             summary := some (.str "None.")
             published := some (.str "2024-01-14T12:00:00Z")
             updated := some (.str "2024-01-14T12:00:00Z")
             link := some (.str "B")
             pdfLink := some (.str "")
             comment := some (.str "")
             categories := []
             primaryCategory := some (.str "") }] :=
  rfl

/-- C3. For an entry whose link list has an `alternate` element and a `pdf`
element, the link step succeeds, `link` is the address of the first
`alternate` element and `pdfLink` the address of the first `pdf` element (the
address being `_href || ""`, which is the `_href` string itself whenever there
is one); for the list `[self A, alternate B, pdf C]` this gives `"B"` and
`"C"`. -/
theorem link_and_pdfLink_of_link_list :
    (∀ (entry : XVal) (links : List XVal) (a p : XVal),
      getProp entry "link" = some (.arr links) →
      links.find? isAlternate = some a → links.find? isPdf = some p →
        extractLinks entry = .ok (hrefOrEmpty a, hrefOrEmpty p) ∧
        ∀ paper, normalizeEntry entry = .ok paper →
          paper.link = some (hrefOrEmpty a) ∧ paper.pdfLink = some (hrefOrEmpty p)) ∧
    (∀ (l : XVal) (h : String), getProp l "_href" = some (.str h) → hrefOrEmpty l = .str h) ∧
    (normalizeEntry (entryWithLinks linksExample)).toOption.map
        (fun paper => (paper.link, paper.pdfLink)) =
      some (some (.str "B"), some (.str "C")) := by
  refine ⟨?_, ?_, rfl⟩
  · intro entry links a p h ha hp
    have hl : extractLinks entry = .ok (hrefOrEmpty a, hrefOrEmpty p) := by
      rw [extractLinks_array h, ha, hp]; rfl
    refine ⟨hl, ?_⟩
    intro paper hpaper
    obtain ⟨m, q, t, s, hl', -, -, rfl⟩ := normalizeEntry_ok hpaper
    rw [hl] at hl'
    cases hl'
    exact ⟨rfl, rfl⟩
  · intro l h hh
    unfold hrefOrEmpty jsOr
    rw [hh]
    by_cases he : h = ""
    · subst he; rfl
    · simp [truthy, he]

/-- Witness for C3: the specification's example list. -/
theorem link_and_pdfLink_of_link_list_witness :
    getProp (entryWithLinks linksExample) "link" = some linksExample ∧
    extractLinks (entryWithLinks linksExample) = .ok (.str "B", .str "C") ∧
    ∀ paper, normalizeEntry (entryWithLinks linksExample) = .ok paper →
      paper.link = some (.str "B") ∧ paper.pdfLink = some (.str "C") :=
  ⟨rfl, link_and_pdfLink_of_link_list.1 (entryWithLinks linksExample) _ _ _ rfl rfl rfl⟩

/-- C4. The window filter returns a sublist of its input (relative order
kept) that holds exactly the entries whose `published` time is valid and not
earlier than the cutoff, and it is the largest such sublist; for entries
published one day, eight days and six hours before the call and the cutoff
seven days before the call, the first and the third are retained, in that
order. -/
theorem windowFilter_retains_exactly :
    (∀ (H : Host) (cutoff : Int) (entries : List XVal),
      (windowFilter H cutoff entries).Sublist entries ∧
      (∀ e, e ∈ windowFilter H cutoff entries ↔ e ∈ entries ∧ PublishedSince H cutoff e) ∧
      (∀ l : List XVal, l.Sublist entries → (∀ e ∈ l, PublishedSince H cutoff e) →
        l.Sublist (windowFilter H cutoff entries))) ∧
    (∀ doc : XVal,
      windowFilter (sampleHost doc) ((sampleHost doc).sevenDaysBefore (sampleHost doc).now)
          [entryAt "2024-01-14T12:00:00Z", entryAt "2024-01-07T12:00:00Z",
            entryAt "2024-01-15T06:00:00Z"] =
        [entryAt "2024-01-14T12:00:00Z", entryAt "2024-01-15T06:00:00Z"]) := by
  refine ⟨?_, fun _ => rfl⟩
  intro H cutoff entries
  refine ⟨List.filter_sublist _, ?_, ?_⟩
  · intro e
    unfold windowFilter
    rw [List.mem_filter, inWindow_iff]
  · intro l hl hall
    have h1 : (l.filter (inWindow H cutoff)).Sublist (windowFilter H cutoff entries) :=
      hl.filter _
    have h2 : l.filter (inWindow H cutoff) = l :=
      List.filter_eq_self.2 (fun e he => (inWindow_iff H cutoff e).2 (hall e he))
    rwa [h2] at h1

/-- Witness for C4: membership in the filtered sample list. -/
theorem windowFilter_retains_exactly_witness :
    entryAt "2024-01-15T06:00:00Z" ∈
        windowFilter (sampleHost (feedOf (.arr []))) sampleCutoff
          [entryAt "2024-01-07T12:00:00Z", entryAt "2024-01-15T06:00:00Z"] ∧
    PublishedSince (sampleHost (feedOf (.arr []))) sampleCutoff
      (entryAt "2024-01-15T06:00:00Z") :=
  ⟨List.mem_singleton.2 rfl,
    (((windowFilter_retains_exactly.1 (sampleHost (feedOf (.arr []))) sampleCutoff
      [entryAt "2024-01-07T12:00:00Z", entryAt "2024-01-15T06:00:00Z"]).2.1
        (entryAt "2024-01-15T06:00:00Z")).1 (List.mem_singleton.2 rfl)).2⟩

/-- Counterexample for C5: a feed whose `entry` is a single object, published
inside the window, with two links none of which has relation `alternate`.  The
call does not return a one-element paper sequence: it throws. -/
theorem singleton_in_window_can_fail :
    getProp (feedOf (entryWithLinks linksNoAlternate)) "feed" =
      some (.obj [("title", .str "ArXiv Query"), ("entry", entryWithLinks linksNoAlternate)]) ∧
    (∀ items, entryWithLinks linksNoAlternate ≠ .arr items) ∧
    inWindow (sampleHost (.str ""))
      ((sampleHost (.str "")).sevenDaysBefore (sampleHost (.str "")).now)
      (entryWithLinks linksNoAlternate) = true ∧
    getRecentPapers (sampleHost (feedOf (entryWithLinks linksNoAlternate))) none =
      .error (.typeError "Cannot read properties of undefined (reading _href)") ∧
    ¬ ∃ papers, getRecentPapers (sampleHost (feedOf (entryWithLinks linksNoAlternate))) none =
      .ok papers := by
  refine ⟨rfl, fun _ h => XVal.noConfusion h, rfl, rfl, ?_⟩
  rintro ⟨papers, h⟩
  have herr : getRecentPapers (sampleHost (feedOf (entryWithLinks linksNoAlternate))) none =
      .error (.typeError "Cannot read properties of undefined (reading _href)") := rfl
  rw [herr] at h
  cases h

/-- C5 (amended). A feed whose `entry` is a single value that is not an array
gives the same outcome as the feed whose `entry` is the one-element array
holding that value, for the whole call and for the processing of the parsed
document at every cutoff.  A singleton entry inside the window is never
dropped: the outcome is that of its own normalisation, and when the
normalisation succeeds the result is the one-element sequence of its paper, in
the processing of the document and in the whole call once the request has
succeeded. -/
theorem singleton_entry_same_as_list (H : Host) (maxResults : Option ArgValue)
    (doc₁ doc₂ feed₁ feed₂ v : XVal)
    (hf₁ : getProp doc₁ "feed" = some feed₁) (he₁ : getProp feed₁ "entry" = some v)
    (hv : ∀ items, v ≠ .arr items)
    (hf₂ : getProp doc₂ "feed" = some feed₂) (he₂ : getProp feed₂ "entry" = some (.arr [v])) :
    getRecentPapers (H.withDocument doc₁) maxResults =
      getRecentPapers (H.withDocument doc₂) maxResults ∧
    (∀ cutoff, processFeed H cutoff doc₁ = processFeed H cutoff doc₂) ∧
    (∀ cutoff, inWindow H cutoff v = true →
      processFeed H cutoff doc₁ = (normalizeEntry v).map (fun paper => [paper])) ∧
    (∀ cutoff paper, inWindow H cutoff v = true → normalizeEntry v = .ok paper →
      processFeed H cutoff doc₁ = .ok [paper]) ∧
    (∀ body paper, H.httpGet (apiUrl maxResults) = .ok body →
      inWindow H (H.sevenDaysBefore H.now) v = true → normalizeEntry v = .ok paper →
      getRecentPapers (H.withDocument doc₁) maxResults = .ok [paper]) := by
  have key : ∀ cutoff, processFeed H cutoff doc₁ = processFeed H cutoff doc₂ := by
    intro cutoff
    rw [processFeed_single hf₁ he₁ hv, processFeed_list hf₂ he₂]
  have one : ∀ cutoff, inWindow H cutoff v = true →
      processFeed H cutoff doc₁ = (normalizeEntry v).map (fun paper => [paper]) := by
    intro cutoff hin
    rw [processFeed_single hf₁ he₁ hv]
    have hw : windowFilter H cutoff [v] = [v] := by
      unfold windowFilter
      simp [hin]
    rw [hw]
    unfold normalizeAll
    cases normalizeEntry v with
    | error e => rfl
    | ok p => rfl
  have ok : ∀ cutoff paper, inWindow H cutoff v = true → normalizeEntry v = .ok paper →
      processFeed H cutoff doc₁ = .ok [paper] := by
    intro cutoff paper hin hp
    rw [one cutoff hin, hp]
    rfl
  refine ⟨?_, key, one, ok, ?_⟩
  · rw [getRecentPapers_withDocument, getRecentPapers_withDocument, key]
  · intro body paper hb hin hp
    rw [getRecentPapers_withDocument, hb]
    exact ok _ paper hin hp

/-- Witness for C5 (amended): the sample entry as a singleton and as a
one-element list. -/
theorem singleton_entry_same_as_list_witness :
    getRecentPapers ((sampleHost (.str "")).withDocument
        (feedOf (entryWithLinks linksExample))) none =
      getRecentPapers ((sampleHost (.str "")).withDocument
        (feedOf (.arr [entryWithLinks linksExample]))) none ∧
    getRecentPapers ((sampleHost (.str "")).withDocument
        (feedOf (entryWithLinks linksExample))) none = .ok [paperExample] :=
  ⟨(singleton_entry_same_as_list (sampleHost (.str "")) none
      (feedOf (entryWithLinks linksExample)) (feedOf (.arr [entryWithLinks linksExample]))
      _ _ (entryWithLinks linksExample) rfl rfl (fun _ h => XVal.noConfusion h) rfl rfl).1,
    (singleton_entry_same_as_list (sampleHost (.str "")) none
      (feedOf (entryWithLinks linksExample)) (feedOf (.arr [entryWithLinks linksExample]))
      _ _ (entryWithLinks linksExample) rfl rfl (fun _ h => XVal.noConfusion h) rfl
      rfl).2.2.2.2 "<feed/>" paperExample rfl rfl rfl⟩

/-- C6. In every normalised paper `title` and `summary` are strings in which
every whitespace character is a single U+0020, no two whitespace characters are
adjacent and neither end is whitespace; when the entry's field is a string they
are that string after `replace(/\s+/g, " ").trim()`. -/
theorem title_and_summary_tidy (entry : XVal) (paper : Paper)
    (h : normalizeEntry entry = .ok paper) :
    ∃ t s : String, paper.title = some (.str t) ∧ paper.summary = some (.str s) ∧
      Tidy t.data ∧ Tidy s.data ∧
      (∀ raw, getProp entry "title" = some (.str raw) → t = cleanText raw) ∧
      (∀ raw, getProp entry "summary" = some (.str raw) → s = cleanText raw) := by
  obtain ⟨m, q, t, s, -, ht, hs, rfl⟩ := normalizeEntry_ok h
  obtain ⟨t', rfl, htidy, hteq⟩ := normText_ok ht
  obtain ⟨s', rfl, hstidy, hseq⟩ := normText_ok hs
  exact ⟨t', s', rfl, rfl, htidy, hstidy, hteq, hseq⟩

/-- Witness for C6: the sample entry, whose title and summary contain line
breaks and runs of blanks. -/
theorem title_and_summary_tidy_witness :
    normalizeEntry (entryWithLinks linksExample) = .ok paperExample ∧
    ∃ t s : String, paperExample.title = some (.str t) ∧
      paperExample.summary = some (.str s) ∧ Tidy t.data ∧ Tidy s.data ∧
      (∀ raw, getProp (entryWithLinks linksExample) "title" = some (.str raw) →
        t = cleanText raw) ∧
      (∀ raw, getProp (entryWithLinks linksExample) "summary" = some (.str raw) →
        s = cleanText raw) :=
  ⟨rfl, title_and_summary_tidy (entryWithLinks linksExample) paperExample rfl⟩

/-- C7. For an entry whose author field is a list of author objects, the
`authors` array is the list of their `name` properties in the same order: it
has the same length, its i-th element is the name of the i-th author, and it is
what every paper normalised from the entry carries. -/
theorem authors_of_author_list (entry : XVal) (as : List XVal)
    (h : getProp entry "author" = some (.arr as)) :
    extractAuthors entry = as.map (fun a => getProp a "name") ∧
    (extractAuthors entry).length = as.length ∧
    (∀ i : Nat, (extractAuthors entry)[i]? = (as[i]?).map (fun a => getProp a "name")) ∧
    ∀ paper, normalizeEntry entry = .ok paper →
      paper.authors = as.map (fun a => getProp a "name") := by
  have hA : extractAuthors entry = as.map (fun a => getProp a "name") := by
    unfold extractAuthors pluck
    rw [h]; rfl
  refine ⟨hA, ?_, ?_, ?_⟩
  · rw [hA, List.length_map]
  · intro i
    rw [hA, List.getElem?_map]
  · intro paper hpaper
    obtain ⟨m, q, t, s, -, -, -, rfl⟩ := normalizeEntry_ok hpaper
    exact hA

/-- Witness for C7: an entry with two authors. -/
theorem authors_of_author_list_witness :
    getProp entryTwoAuthors "author" =
      some (.arr [.obj [("name", .str "Ada")], .obj [("name", .str "Bob")]]) ∧
    extractAuthors entryTwoAuthors = [some (.str "Ada"), some (.str "Bob")] :=
  ⟨rfl, (authors_of_author_list entryTwoAuthors
    [.obj [("name", .str "Ada")], .obj [("name", .str "Bob")]] rfl).1⟩

/-- Counterexample for C8: with the cutoff 2024-01-08 and the later cutoff
2024-01-15, an entry published on 2024-01-10 survives the first filtering and
is dropped by the second. -/
theorem windowFilter_later_cutoff_drops :
    ¬ ∀ (H : Host) (entries : List XVal) (c c' : Int), c ≤ c' →
        windowFilter H c' (windowFilter H c entries) = windowFilter H c entries := by
  intro h
  have h1 := h (sampleHost (feedOf (.arr []))) [entryAt "2024-01-10T00:00:00Z"]
    1704715200000 1705320000000 (by decide)
  have h2 : ([] : List XVal) = [entryAt "2024-01-10T00:00:00Z"] := h1
  exact List.cons_ne_nil _ _ h2.symm

/-- C8 (amended). Filtering an already filtered list again with the same or an
earlier cutoff returns the same list. -/
theorem windowFilter_idempotent (H : Host) (entries : List XVal) (c c' : Int)
    (h : c' ≤ c) :
    windowFilter H c' (windowFilter H c entries) = windowFilter H c entries := by
  unfold windowFilter
  apply List.filter_eq_self.2
  intro e he
  have he' := (List.mem_filter.1 he).2
  rw [inWindow_iff] at he' ⊢
  obtain ⟨t, ht, hct⟩ := he'
  exact ⟨t, ht, le_trans h hct⟩

/-- Witness for C8 (amended): the same cutoff twice. -/
theorem windowFilter_idempotent_witness :
    (1704715200000 : Int) ≤ 1704715200000 ∧
    windowFilter (sampleHost (feedOf (.arr []))) 1704715200000
        (windowFilter (sampleHost (feedOf (.arr []))) 1704715200000
          [entryAt "2024-01-10T00:00:00Z", entryAt "2024-01-07T12:00:00Z"]) =
      windowFilter (sampleHost (feedOf (.arr []))) 1704715200000
        [entryAt "2024-01-10T00:00:00Z", entryAt "2024-01-07T12:00:00Z"] :=
  ⟨by decide, windowFilter_idempotent _ _ _ _ (by decide)⟩

/-- C9. The claim asks that an in-window entry whose link list has an
`alternate` element but no `pdf` element is normalised with an empty
`pdfLink`.  On such a feed the call throws a `TypeError` instead. -/
theorem getRecentPapers_throws_without_pdf :
    inWindow (sampleHost (feedOf (.arr []))) sampleCutoff
        (entryWithLinks linksNoPdf) = true ∧
    getRecentPapers (sampleHost (feedOf (entryWithLinks linksNoPdf))) none =
      .error (.typeError "Cannot read properties of undefined (reading _href)") :=
  ⟨rfl, rfl⟩

/-- C10. The claim asks that the query, read with AND binding tighter than OR,
is the conjunction of the category group and the keyword group.  Read that
way, the string the source builds is a disjunction of five operands: four
single categories and the conjunction of `cat:stat.ML` with the keyword group.
Only the string with the category group in parentheses has the stated
structure. -/
theorem searchQuery_reads_as_disjunction :
    specReadQuery searchQuery =
      some (.or (specAny "cat:cs.AI" ["cat:cs.LG", "cat:cs.CV", "cat:cs.CL"])
        (.and (.term "cat:stat.ML")
          (specAny "all:deep learning" ["all:neural network", "all:machine learning"]))) ∧
    specReadQuery searchQuery ≠ some specStatedQuery ∧
    specReadQuery
        ("(cat:cs.AI OR cat:cs.LG OR cat:cs.CV OR cat:cs.CL OR cat:stat.ML)" ++
          " AND (all:deep learning OR all:neural network OR all:machine learning)") =
      some specStatedQuery := by
  refine ⟨by decide, by decide, by decide⟩

/-- Counterexample for C11: in New York, called at 2024-03-12T12:00:00Z, the
cutoff is 2024-03-05T13:00:00Z, one hour later than the call time minus seven
days, and an entry published exactly seven days before the call is dropped. -/
theorem cutoff_later_than_seven_days_in_new_york :
    (newYorkHost (.str "")).sevenDaysBefore (newYorkHost (.str "")).now =
      (newYorkHost (.str "")).now - 604800000 + 3600000 ∧
    (newYorkHost (.str "")).dateParse "2024-03-05T12:00:00Z" =
      some ((newYorkHost (.str "")).now - 604800000) ∧
    getRecentPapers (newYorkHost (feedOf (entryAt "2024-03-05T12:00:00Z"))) none = .ok [] :=
  ⟨rfl, rfl, rfl⟩

/-- C11 (amended). The cutoff is one value, computed before the request from
the call time alone: the moment whose local clock reading is the call time's
reading seven calendar days earlier.  An entry with a valid `published` time is
retained exactly when that time is not earlier than the cutoff (inclusive lower
bound, no upper bound).  When the zone's offset is the same at both moments the
cutoff is the call time minus exactly seven days; and whenever the cutoff is
not later than the call time, every entry published at or after the call time
is retained. -/
theorem window_cutoff (H : Host) (Z : Zone) (hz : H.sevenDaysBefore = setDateBack7 Z) :
    (∀ maxResults, getRecentPapers H maxResults =
      (H.httpGet (apiUrl maxResults) >>= fun body =>
        H.xmlParse body >>= fun doc => processFeed H (setDateBack7 Z H.now) doc)) ∧
    (∀ e t, newDate H (getProp e "published") = some t →
      (inWindow H (setDateBack7 Z H.now) e = true ↔ setDateBack7 Z H.now ≤ t)) ∧
    setDateBack7 Z H.now =
      H.now - 604800000 +
        (Z.offsetAtUtc H.now - Z.offsetAtLocal (H.now + Z.offsetAtUtc H.now - 604800000)) ∧
    (Z.offsetAtLocal (H.now + Z.offsetAtUtc H.now - 604800000) = Z.offsetAtUtc H.now →
      setDateBack7 Z H.now = H.now - 604800000 ∧
      (∀ e t, newDate H (getProp e "published") = some t →
        (inWindow H (setDateBack7 Z H.now) e = true ↔ H.now - 604800000 ≤ t)) ∧
      (∀ e t, newDate H (getProp e "published") = some t → H.now ≤ t →
        inWindow H (setDateBack7 Z H.now) e = true)) ∧
    (setDateBack7 Z H.now ≤ H.now →
      ∀ e t, newDate H (getProp e "published") = some t → H.now ≤ t →
        inWindow H (setDateBack7 Z H.now) e = true) := by
  have hiff : ∀ (c : Int) (e : XVal) (t : Int), newDate H (getProp e "published") = some t →
      (inWindow H c e = true ↔ c ≤ t) := by
    intro c e t ht
    unfold inWindow dateGe
    rw [ht]
    simp
  have hform : setDateBack7 Z H.now =
      H.now - 604800000 +
        (Z.offsetAtUtc H.now - Z.offsetAtLocal (H.now + Z.offsetAtUtc H.now - 604800000)) := by
    simp only [setDateBack7, sevenDaysMs]
    omega
  refine ⟨?_, fun e t ht => hiff _ e t ht, hform, ?_,
    fun hle e t ht hnow => (hiff _ e t ht).2 (le_trans hle hnow)⟩
  · intro maxResults
    rw [getRecentPapers_steps, hz]
  · intro hsame
    have hcut : setDateBack7 Z H.now = H.now - 604800000 := by
      rw [hform, hsame]; omega
    refine ⟨hcut, ?_, ?_⟩
    · intro e t ht
      rw [hcut]
      exact hiff _ e t ht
    · intro e t ht hnow
      rw [hcut]
      exact (hiff _ e t ht).2 (by omega)

/-- Witness for C11 (amended): the New York host, whose cutoff is
2024-03-05T13:00:00Z; an entry published at that very moment is retained. -/
theorem window_cutoff_witness :
    (newYorkHost (.str "")).sevenDaysBefore = setDateBack7 newYork2024 ∧
    (inWindow (newYorkHost (.str ""))
        (setDateBack7 newYork2024 (newYorkHost (.str "")).now)
        (entryAt "2024-03-05T13:00:00Z") = true ↔
      setDateBack7 newYork2024 (newYorkHost (.str "")).now ≤ 1709643600000) :=
  ⟨rfl, (window_cutoff (newYorkHost (.str "")) newYork2024 rfl).2.1
    (entryAt "2024-03-05T13:00:00Z") 1709643600000 rfl⟩

/-- C12. For an entry whose `link` field is present and not a list, the link
step succeeds, `link` is the field's `_href || ""` (the `_href` string when
there is one, the empty string when there is none) and `pdfLink` is the empty
string; for an entry without a `link` field both are the empty string. -/
theorem link_of_single_link (entry : XVal) :
    (∀ l, getProp entry "link" = some l → (∀ items, l ≠ .arr items) →
      extractLinks entry = .ok (hrefOrEmpty l, .str "") ∧
      (∀ h, getProp l "_href" = some (.str h) → hrefOrEmpty l = .str h) ∧
      (getProp l "_href" = none → hrefOrEmpty l = .str "") ∧
      ∀ paper, normalizeEntry entry = .ok paper →
        paper.link = some (hrefOrEmpty l) ∧ paper.pdfLink = some (.str "")) ∧
    (getProp entry "link" = none →
      extractLinks entry = .ok (.str "", .str "") ∧
      ∀ paper, normalizeEntry entry = .ok paper →
        paper.link = some (.str "") ∧ paper.pdfLink = some (.str "")) := by
  constructor
  · intro l h hl
    have hx := extractLinks_single h hl
    refine ⟨hx, ?_, ?_, ?_⟩
    · intro s hs
      unfold hrefOrEmpty jsOr
      rw [hs]
      by_cases he : s = ""
      · subst he; rfl
      · simp [truthy, he]
    · intro hnone
      unfold hrefOrEmpty jsOr
      rw [hnone]
    · intro paper hpaper
      obtain ⟨m, q, t, s, hl', -, -, rfl⟩ := normalizeEntry_ok hpaper
      rw [hx] at hl'
      cases hl'
      exact ⟨rfl, rfl⟩
  · intro h
    have hx := extractLinks_absent h
    refine ⟨hx, ?_⟩
    intro paper hpaper
    obtain ⟨m, q, t, s, hl', -, -, rfl⟩ := normalizeEntry_ok hpaper
    rw [hx] at hl'
    cases hl'
    exact ⟨rfl, rfl⟩

/-- Witness for C12: an entry with one link object and an entry with no link. -/
theorem link_of_single_link_witness :
    extractLinks entrySingles = .ok (.str "B", .str "") ∧
    extractLinks entryTwoAuthors = .ok (.str "", .str "") :=
  ⟨((link_of_single_link entrySingles).1
      (.obj [("_href", .str "B"), ("_rel", .str "alternate")]) rfl
      (fun _ h => XVal.noConfusion h)).1,
    ((link_of_single_link entryTwoAuthors).2 rfl).1⟩

set_option maxRecDepth 100000 in
/-- C13. The request URL is the fixed prefix, the URL-encoded query, the fixed
sort parameters and the textual form of `maxResults` (of 50 when omitted): the
decimal numeral for an integer in the safe range, so that zero and negative
values appear verbatim, and for any other value the text it is converted to.
Nothing can fail before the request, which is the first step of the call and is
issued with that URL. -/
theorem apiUrl_exact :
    (∀ maxResults : Option ArgValue,
      apiUrl maxResults =
        "http://export.arxiv.org/api/query?search_query=" ++ encodedQuery ++
          "&sortBy=submittedDate&sortOrder=descending&max_results=" ++
          (maxResults.getD defaultMaxResults).text) ∧
    (∀ (n : Int) (safe : n.natAbs ≤ 9007199254740991),
      (ArgValue.int n safe).text = toString n) ∧
    (∀ t : String, (ArgValue.other t).text = t) ∧
    defaultMaxResults.text = "50" ∧
    encodeURIComponent searchQuery = encodedQuery ∧
    apiUrl none =
      "http://export.arxiv.org/api/query?search_query=" ++ encodedQuery ++
        "&sortBy=submittedDate&sortOrder=descending&max_results=50" ∧
    apiUrl (some (.int 0 (by decide))) =
      "http://export.arxiv.org/api/query?search_query=" ++ encodedQuery ++
        "&sortBy=submittedDate&sortOrder=descending&max_results=0" ∧
    apiUrl (some (.int (-7) (by decide))) =
      "http://export.arxiv.org/api/query?search_query=" ++ encodedQuery ++
        "&sortBy=submittedDate&sortOrder=descending&max_results=-7" ∧
    apiUrl (some (.other "1e+21")) =
      "http://export.arxiv.org/api/query?search_query=" ++ encodedQuery ++
        "&sortBy=submittedDate&sortOrder=descending&max_results=1e+21" ∧
    (∀ (H : Host) (maxResults : Option ArgValue),
      getRecentPapers H maxResults =
        (H.httpGet (apiUrl maxResults) >>= fun body =>
          H.xmlParse body >>= fun doc => processFeed H (H.sevenDaysBefore H.now) doc)) :=
  ⟨fun _ => by rfl, fun _ _ => rfl, fun _ => rfl, by rfl, by rfl, by rfl, by rfl, by rfl,
    by rfl, fun _ _ => rfl⟩

/-- C14. For an entry whose `author` field is a single object, the `authors`
array has exactly one element, the object's `name`, and that is what every
paper normalised from the entry carries. -/
theorem authors_of_single_author (entry : XVal) (fields : List (String × XVal))
    (h : getProp entry "author" = some (.obj fields)) :
    extractAuthors entry = [getProp (.obj fields) "name"] ∧
    (extractAuthors entry).length = 1 ∧
    ∀ paper, normalizeEntry entry = .ok paper →
      paper.authors = [getProp (.obj fields) "name"] := by
  have hA : extractAuthors entry = [getProp (.obj fields) "name"] := by
    unfold extractAuthors
    rw [h, pluck_obj]
  refine ⟨hA, by rw [hA]; rfl, ?_⟩
  intro paper hpaper
  obtain ⟨m, q, t, s, -, -, -, rfl⟩ := normalizeEntry_ok hpaper
  exact hA

/-- Witness for C14: an entry with the single author Ada. -/
theorem authors_of_single_author_witness :
    getProp entrySingles "author" = some (.obj [("name", .str "Ada")]) ∧
    extractAuthors entrySingles = [some (.str "Ada")] :=
  ⟨rfl, (authors_of_single_author entrySingles [("name", .str "Ada")] rfl).1⟩

/-- C15. For an entry without an `author` field `authors` is the empty array,
and for an entry without a `category` field `categories` is the empty array,
in the link-independent extraction and in every normalised paper. -/
theorem empty_authors_and_categories (entry : XVal) :
    (getProp entry "author" = none →
      extractAuthors entry = [] ∧
      ∀ paper, normalizeEntry entry = .ok paper → paper.authors = []) ∧
    (getProp entry "category" = none →
      extractCategories entry = [] ∧
      ∀ paper, normalizeEntry entry = .ok paper → paper.categories = []) := by
  constructor
  · intro h
    have hA : extractAuthors entry = [] := by
      unfold extractAuthors
      rw [h, pluck_none]
    refine ⟨hA, ?_⟩
    intro paper hpaper
    obtain ⟨m, q, t, s, -, -, -, rfl⟩ := normalizeEntry_ok hpaper
    exact hA
  · intro h
    have hC : extractCategories entry = [] := by
      unfold extractCategories
      rw [h, pluck_none]
    refine ⟨hC, ?_⟩
    intro paper hpaper
    obtain ⟨m, q, t, s, -, -, -, rfl⟩ := normalizeEntry_ok hpaper
    exact hC

/-- Witness for C15: an entry without authors and an entry without
categories. -/
theorem empty_authors_and_categories_witness :
    extractAuthors entryTwoCategories = [] ∧ extractCategories entryTwoAuthors = [] :=
  ⟨((empty_authors_and_categories entryTwoCategories).1 rfl).1,
    ((empty_authors_and_categories entryTwoAuthors).2 rfl).1⟩

/-- C16. The `categories` array is built like `authors`: a list of category
objects gives their `_term` attributes in the same order (same length), a
single category object gives the one-element array with its `_term`. -/
theorem categories_of_category_field (entry : XVal) :
    (∀ cs : List XVal, getProp entry "category" = some (.arr cs) →
      extractCategories entry = cs.map (fun c => getProp c "_term") ∧
      (extractCategories entry).length = cs.length ∧
      ∀ paper, normalizeEntry entry = .ok paper →
        paper.categories = cs.map (fun c => getProp c "_term")) ∧
    (∀ fields : List (String × XVal), getProp entry "category" = some (.obj fields) →
      extractCategories entry = [getProp (.obj fields) "_term"] ∧
      ∀ paper, normalizeEntry entry = .ok paper →
        paper.categories = [getProp (.obj fields) "_term"]) := by
  constructor
  · intro cs h
    have hC : extractCategories entry = cs.map (fun c => getProp c "_term") := by
      unfold extractCategories
      rw [h, pluck_arr]
    refine ⟨hC, by rw [hC, List.length_map], ?_⟩
    intro paper hpaper
    obtain ⟨m, q, t, s, -, -, -, rfl⟩ := normalizeEntry_ok hpaper
    exact hC
  · intro fields h
    have hC : extractCategories entry = [getProp (.obj fields) "_term"] := by
      unfold extractCategories
      rw [h, pluck_obj]
    refine ⟨hC, ?_⟩
    intro paper hpaper
    obtain ⟨m, q, t, s, -, -, -, rfl⟩ := normalizeEntry_ok hpaper
    exact hC

/-- Witness for C16: an entry with two categories and one with a single
category. -/
theorem categories_of_category_field_witness :
    extractCategories entryTwoCategories = [some (.str "cs.LG"), some (.str "stat.ML")] ∧
    extractCategories entrySingles = [some (.str "cs.LG")] :=
  ⟨((categories_of_category_field entryTwoCategories).1
      [.obj [("_term", .str "cs.LG")], .obj [("_term", .str "stat.ML")]] rfl).1,
    ((categories_of_category_field entrySingles).2
      [("_term", .str "cs.LG"), ("_scheme", .str "http://arxiv.org/schemas/atom")] rfl).1⟩

/-- C17. When the request fails, the call fails with the very error the
request raised; when the parser fails, the call fails with the parser's error;
when the document has no feed, or the normalisation of some entry inside the
window fails, the call fails as a whole: no papers are returned. -/
theorem failures_propagate (H : Host) (maxResults : Option ArgValue) :
    (∀ err, H.httpGet (apiUrl maxResults) = .error err →
      getRecentPapers H maxResults = .error err) ∧
    (∀ body err, H.httpGet (apiUrl maxResults) = .ok body → H.xmlParse body = .error err →
      getRecentPapers H maxResults = .error err) ∧
    (∀ body doc err, H.httpGet (apiUrl maxResults) = .ok body → H.xmlParse body = .ok doc →
      entryArray doc = .error err → getRecentPapers H maxResults = .error err) ∧
    (∀ body doc entries e err, H.httpGet (apiUrl maxResults) = .ok body →
      H.xmlParse body = .ok doc → entryArray doc = .ok entries → e ∈ entries →
      inWindow H (H.sevenDaysBefore H.now) e = true → normalizeEntry e = .error err →
      ∃ err', getRecentPapers H maxResults = .error err') := by
  refine ⟨?_, ?_, ?_, ?_⟩
  · intro err h
    rw [getRecentPapers_steps, h]
    rfl
  · intro body err h hp
    rw [getRecentPapers_steps, h]
    show (H.xmlParse body >>= fun doc => processFeed H (H.sevenDaysBefore H.now) doc) = _
    rw [hp]
    rfl
  · intro body doc err h hp he
    rw [getRecentPapers_steps, h]
    show (H.xmlParse body >>= fun doc => processFeed H (H.sevenDaysBefore H.now) doc) = _
    rw [hp]
    show processFeed H (H.sevenDaysBefore H.now) doc = _
    unfold processFeed
    rw [he]
    rfl
  · intro body doc entries e err h hp he hmem hin herr
    have hmem' : e ∈ windowFilter H (H.sevenDaysBefore H.now) entries :=
      List.mem_filter.2 ⟨hmem, hin⟩
    obtain ⟨err', h'⟩ := normalizeAll_error_of_mem hmem' herr
    refine ⟨err', ?_⟩
    rw [getRecentPapers_steps, h]
    show (H.xmlParse body >>= fun doc => processFeed H (H.sevenDaysBefore H.now) doc) = _
    rw [hp]
    show processFeed H (H.sevenDaysBefore H.now) doc = _
    rw [processFeed_of_entryArray he, h']

/-- Witness for C17: a request answered with status 503, and a body the parser
rejects. -/
theorem failures_propagate_witness :
    getRecentPapers (failingHost (.fetchError "Request failed with status code 503")) none =
      .error (.fetchError "Request failed with status code 503") ∧
    getRecentPapers (unparsableHost (.parseError "Unclosed tag")) none =
      .error (.parseError "Unclosed tag") :=
  ⟨(failures_propagate (failingHost (.fetchError "Request failed with status code 503"))
      none).1 _ rfl,
    (failures_propagate (unparsableHost (.parseError "Unclosed tag")) none).2.1 _ _ rfl rfl⟩

/-- C18. A document whose feed has no `entry` gives the empty paper sequence,
in the processing of the document and in the whole call once the request has
succeeded; and the papers returned are never more than the entries of the
feed. -/
theorem empty_feed_and_paper_count (H : Host) (cutoff : Int) (doc : XVal) :
    (∀ feed, getProp doc "feed" = some feed → getProp feed "entry" = none →
      processFeed H cutoff doc = .ok [] ∧
      ∀ maxResults body, H.httpGet (apiUrl maxResults) = .ok body →
        getRecentPapers (H.withDocument doc) maxResults = .ok []) ∧
    (∀ entries papers, entryArray doc = .ok entries → processFeed H cutoff doc = .ok papers →
      papers.length ≤ entries.length) := by
  constructor
  · intro feed hf he
    have hE : entryArray doc = .ok [] := by
      unfold entryArray
      rw [hf]
      simp only [getMember, he]
      rfl
    have hP : ∀ c, processFeed H c doc = .ok [] := by
      intro c
      rw [processFeed_of_entryArray hE]
      rfl
    refine ⟨hP cutoff, ?_⟩
    intro maxResults body hb
    rw [getRecentPapers_withDocument, hb]
    exact hP _
  · intro entries papers hE hP
    rw [processFeed_of_entryArray hE] at hP
    rw [normalizeAll_length hP]
    exact List.length_filter_le _ _

/-- Witness for C18: a feed with a title and no entry. -/
theorem empty_feed_and_paper_count_witness :
    getRecentPapers ((sampleHost (.str "")).withDocument
      (.obj [("feed", .obj [("title", .str "ArXiv Query")])])) none = .ok [] :=
  ((empty_feed_and_paper_count (sampleHost (.str "")) sampleCutoff
    (.obj [("feed", .obj [("title", .str "ArXiv Query")])])).1 _ rfl rfl).2 none _ rfl

/-- Counterexample for C19: on a host whose clock reads 1970-01-03 (cutoff
1969-12-27), an entry whose `published` is the number 0 denotes the epoch,
passes the filter, and is returned with `published` equal to the empty string,
because `0 || ""` is `""`. -/
theorem published_default_for_epoch_entry :
    inWindow (epochHost (.str "")) ((epochHost (.str "")).sevenDaysBefore (epochHost (.str "")).now)
      entryPublishedZero = true ∧
    getProp entryPublishedZero "published" = some (.num 0) ∧
    getRecentPapers (epochHost (feedOf entryPublishedZero)) none =
      .ok [{ id := some (.str "http://arxiv.org/abs/0000.00000v1")
             title := some (.str "Epoch")
             authors := []
             summary := some (.str "")
             published := some (.str "")
             updated := some (.str "")
             link := some (.str "")
             pdfLink := some (.str "")
             comment := some (.str "")
             categories := []
             primaryCategory := some (.str "") }] :=
  ⟨rfl, rfl, rfl⟩

/-- C19 (amended). An entry whose `published` is absent or is not a valid
date is dropped by the filter at every cutoff.  When the cutoff is later than
the epoch (the empty string not being a date), every paper returned comes from
an entry of the feed whose `published` value is present, is not the empty
string, denotes a valid time not earlier than the cutoff, and is the paper's
`published` field unchanged. -/
theorem published_of_returned_papers (H : Host) (cutoff : Int) (doc : XVal)
    (papers : List Paper) (hcut : 0 < cutoff) (hempty : H.dateParse "" = none)
    (h : processFeed H cutoff doc = .ok papers) :
    (∀ e, getProp e "published" = none → inWindow H cutoff e = false) ∧
    (∀ e, newDate H (getProp e "published") = none → inWindow H cutoff e = false) ∧
    ∀ p ∈ papers, ∃ entries e v t, entryArray doc = .ok entries ∧ e ∈ entries ∧
      normalizeEntry e = .ok p ∧ getProp e "published" = some v ∧
      p.published = some v ∧ v ≠ .str "" ∧
      newDate H (some v) = some t ∧ cutoff ≤ t := by
  refine ⟨fun e he => inWindow_absent H cutoff he, fun e he => inWindow_invalid H cutoff he, ?_⟩
  intro p hp
  obtain ⟨entries, hE, hN⟩ := processFeed_ok h
  obtain ⟨e, he, hep⟩ := normalizeAll_mem hN p hp
  have hmem := (List.mem_filter.1 he).1
  have hin := (List.mem_filter.1 he).2
  obtain ⟨t, ht, hct⟩ := (inWindow_iff H cutoff e).1 hin
  obtain ⟨m, q, ti, su, -, -, -, hpeq⟩ := normalizeEntry_ok hep
  cases hv : getProp e "published" with
  | none => rw [hv] at ht; cases ht
  | some v =>
    rw [hv] at ht
    have htruthy : truthy (some v) = true := by
      cases v with
      | str s =>
        by_cases hs : s = ""
        · subst hs
          have : newDate H (some (.str "")) = H.dateParse "" := rfl
          rw [this, hempty] at ht
          cases ht
        · simp [truthy, hs]
      | num n =>
        by_cases hn : n = 0
        · subst hn
          have h0 : newDate H (some (.num 0)) = some 0 := rfl
          rw [h0] at ht
          cases ht
          omega
        · simp [truthy, hn]
      | bool b =>
        cases b with
        | true => rfl
        | false =>
          have h0 : newDate H (some (.bool false)) = some 0 := rfl
          rw [h0] at ht
          cases ht
          omega
      | obj fs => rfl
      | arr xs => rfl
    refine ⟨entries, e, v, t, hE, hmem, hep, hv, ?_, ?_, ht, hct⟩
    · rw [hpeq]
      show some (jsOr (getProp e "published") (.str "")) = some v
      rw [hv]
      simp [jsOr, htruthy]
    · intro hvs
      subst hvs
      simp [truthy] at htruthy

/-- Witness for C19 (amended): the sample call returns the sample entry with
its `published` text. -/
theorem published_of_returned_papers_witness :
    (0 : Int) < sampleCutoff ∧
    processFeed (sampleHost (.str "")) sampleCutoff (feedOf (entryWithLinks linksExample)) =
      .ok [paperExample] ∧
    ∀ p ∈ [paperExample], ∃ entries e v t,
      entryArray (feedOf (entryWithLinks linksExample)) = .ok entries ∧ e ∈ entries ∧
      normalizeEntry e = .ok p ∧ getProp e "published" = some v ∧
      p.published = some v ∧ v ≠ .str "" ∧
      newDate (sampleHost (.str "")) (some v) = some t ∧ sampleCutoff ≤ t :=
  ⟨by decide, rfl,
    (published_of_returned_papers (sampleHost (.str "")) sampleCutoff
      (feedOf (entryWithLinks linksExample)) [paperExample] (by decide) rfl rfl).2.2⟩

/-- C20. Removing from the feed an entry that the filter drops (published
before the cutoff, without `published`, or with an invalid one) does not change
the outcome, neither the papers nor the failure, of the processing of the
document at any cutoff or of the whole call. -/
theorem stale_entry_has_no_influence (H : Host) (maxResults : Option ArgValue)
    (doc doc' : XVal) (xs ys : List XVal) (e : XVal)
    (hd : entryArray doc = .ok (xs ++ e :: ys)) (hd' : entryArray doc' = .ok (xs ++ ys)) :
    (∀ cutoff, inWindow H cutoff e = false →
      processFeed H cutoff doc = processFeed H cutoff doc') ∧
    (inWindow H (H.sevenDaysBefore H.now) e = false →
      getRecentPapers (H.withDocument doc) maxResults =
        getRecentPapers (H.withDocument doc') maxResults) ∧
    (∀ cutoff, getProp e "published" = none → inWindow H cutoff e = false) ∧
    (∀ cutoff t, newDate H (getProp e "published") = some t → t < cutoff →
      inWindow H cutoff e = false) := by
  have key : ∀ cutoff, inWindow H cutoff e = false →
      processFeed H cutoff doc = processFeed H cutoff doc' := by
    intro cutoff he
    rw [processFeed_of_entryArray hd, processFeed_of_entryArray hd']
    unfold windowFilter
    rw [List.filter_append, List.filter_append, List.filter_cons_of_neg (by simp [he])]
  refine ⟨key, ?_, fun c h => inWindow_absent H c h, fun c t h ht => inWindow_earlier H c h ht⟩
  intro he
  rw [getRecentPapers_withDocument, getRecentPapers_withDocument, key _ he]

/-- Witness for C20: a feed with the sample entry and a stale entry whose link
list has neither an `alternate` nor a `pdf` element, and the feed without the
stale entry. -/
theorem stale_entry_has_no_influence_witness :
    normalizeEntry entryStale =
      .error (.typeError "Cannot read properties of undefined (reading _href)") ∧
    inWindow (sampleHost (.str "")) sampleCutoff entryStale = false ∧
    getRecentPapers ((sampleHost (.str "")).withDocument
        (feedOf (.arr [entryWithLinks linksExample, entryStale]))) none =
      getRecentPapers ((sampleHost (.str "")).withDocument
        (feedOf (entryWithLinks linksExample))) none ∧
    getRecentPapers ((sampleHost (.str "")).withDocument
        (feedOf (.arr [entryWithLinks linksExample, entryStale]))) none = .ok [paperExample] :=
  ⟨rfl, rfl,
    (stale_entry_has_no_influence (sampleHost (.str "")) none
      (feedOf (.arr [entryWithLinks linksExample, entryStale]))
      (feedOf (entryWithLinks linksExample))
      [entryWithLinks linksExample] [] entryStale rfl rfl).2.1 rfl,
    rfl⟩

end ArxivService
